import Mathlib

/-!
Verification of the mailer package (mailer/utils.py, mailer/base.py,
mailer/templates.py) against its natural-language specification.

The Python source is shallowly embedded: pure helpers become Lean
functions on `String`/`List Char`; the SMTP transport, the filesystem,
the mimetypes table, the base64 encoder and the Jinja2 engine are
external collaborators and are modelled as explicit function-valued
parameters; Python exceptions become `Except String`; Python truthiness
of optional strings and address lists is modelled explicitly.
-/

namespace Mailer

/-! ## Character classes of the address regex in utils.validate_email

The source pattern is `^[a-zA-Z0-9._%+-]+@[a-zA-Z0-9.-]+\.[a-zA-Z]{2,}$`,
matched with `re.match` on a Python `str`. -/

def isLocalChar (c : Char) : Bool :=
  c.isAlpha || c.isDigit || c == '.' || c == '_' || c == '%' || c == '+' || c == '-'

def isDomainChar (c : Char) : Bool :=
  c.isAlpha || c.isDigit || c == '.' || c == '-'

/-- Split a list at the first occurrence of `c`: returns the part before
and the part after that occurrence. -/
def splitAtChar (c : Char) : List Char → Option (List Char × List Char)
  | [] => none
  | x :: rest =>
    if x = c then some ([], rest)
    else (splitAtChar c rest).map (fun p => (x :: p.1, p.2))

/-- Split a list at the last occurrence of `'.'`. -/
def lastDotSplit (cs : List Char) : Option (List Char × List Char) :=
  match splitAtChar '.' cs.reverse with
  | some (a, b) => some (b.reverse, a.reverse)
  | none => none

/-- Matching of the regex body (everything between `^` and `$`) against a
full character list: `local@domain.tld` with nonempty local part over
`[a-zA-Z0-9._%+-]`, nonempty domain over `[a-zA-Z0-9.-]`, and a final
all-letter label of length at least 2 after the last dot.  Because the
local class excludes `@` and the label class excludes `.`, the regex can
only match by splitting at the first `@` and the last `.`. -/
def matchEmailCore (cs : List Char) : Bool :=
  match splitAtChar '@' cs with
  | none => false
  | some (lp, rest) =>
    match lastDotSplit rest with
    | none => false
    | some (dom, tld) =>
      !lp.isEmpty && lp.all isLocalChar &&
        !dom.isEmpty && dom.all isDomainChar &&
        decide (2 ≤ tld.length) && tld.all Char.isAlpha

/-- Embedding of utils.validate_email.  Python `$` (without re.MULTILINE)
matches at the end of the string or just before a newline at the end of
the string, so the pattern also accepts a single trailing newline. -/
def validate_email (email : String) : Bool :=
  matchEmailCore email.data ||
    (match email.data.getLast? with
     | some c => c == '\n' && matchEmailCore email.data.dropLast
     | none => false)

/-! ## Spec-side form of a valid address

Written from the words of the specification: the string has the form
`local-part@domain.tld` where the local part is one or more of
letters/digits/`.`/`_`/`%`/`+`/`-`, the domain is one or more of
letters/digits/`.`/`-`, and the final label after the last dot is 2 or
more letters (all-letter label, hence dot-free). -/
def SpecShape (cs : List Char) : Prop :=
  ∃ lp dom tld : List Char,
    cs = lp ++ '@' :: (dom ++ '.' :: tld) ∧
    lp ≠ [] ∧ lp.all isLocalChar = true ∧
    dom ≠ [] ∧ dom.all isDomainChar = true ∧
    2 ≤ tld.length ∧ tld.all Char.isAlpha = true

def IsSpecValidAddress (s : String) : Prop := SpecShape s.data

/-! ## Characterisation of the splitting helpers -/

theorem splitAtChar_sound (c : Char) (cs : List Char) :
    ∀ a b : List Char, splitAtChar c cs = some (a, b) →
      cs = a ++ c :: b ∧ c ∉ a := by
  induction cs with
  | nil => intro a b h; simp [splitAtChar] at h
  | cons x rest ih =>
    intro a b h
    by_cases hx : x = c
    · subst hx
      simp [splitAtChar] at h
      obtain ⟨ha, hb⟩ := h
      subst ha; subst hb
      simp
    · simp only [splitAtChar, if_neg hx, Option.map_eq_some'] at h
      obtain ⟨⟨a', b'⟩, hr, heq⟩ := h
      obtain ⟨h1, h2⟩ := Prod.mk.injEq .. ▸ heq
      have := ih a' b' hr
      subst h1; subst h2
      refine ⟨by rw [this.1]; simp, ?_⟩
      intro hm
      rcases List.mem_cons.mp hm with h | h
      · exact hx h.symm
      · exact this.2 h

theorem splitAtChar_complete (c : Char) (a b : List Char) (h : c ∉ a) :
    splitAtChar c (a ++ c :: b) = some (a, b) := by
  induction a with
  | nil => simp [splitAtChar]
  | cons x a' ih =>
    have hx : ¬ (x = c) := by
      intro e; apply h; rw [e]; exact List.mem_cons_self c a'
    have ha' : c ∉ a' := fun hm => h (List.mem_cons_of_mem _ hm)
    simp [splitAtChar, hx, ih ha']

theorem lastDotSplit_sound (cs : List Char) :
    ∀ d t : List Char, lastDotSplit cs = some (d, t) →
      cs = d ++ '.' :: t ∧ '.' ∉ t := by
  intro d t h
  unfold lastDotSplit at h
  cases hr : splitAtChar '.' cs.reverse with
  | none => rw [hr] at h; simp at h
  | some p =>
    obtain ⟨a, b⟩ := p
    rw [hr] at h
    simp only [Option.some.injEq, Prod.mk.injEq] at h
    obtain ⟨hd, ht⟩ := h
    obtain ⟨he, hn⟩ := splitAtChar_sound '.' cs.reverse a b hr
    constructor
    · have hrev : cs = (a ++ '.' :: b).reverse := by
        rw [← he, List.reverse_reverse]
      rw [hrev, ← hd, ← ht]
      simp
    · rw [← ht]
      simpa using hn

theorem lastDotSplit_complete (d t : List Char) (h : '.' ∉ t) :
    lastDotSplit (d ++ '.' :: t) = some (d, t) := by
  unfold lastDotSplit
  have hrev : (d ++ '.' :: t).reverse = t.reverse ++ '.' :: d.reverse := by
    simp
  have hnt : '.' ∉ t.reverse := by simpa using h
  rw [hrev, splitAtChar_complete '.' t.reverse d.reverse hnt]
  simp

/-! ## The matcher agrees with the spec-side form -/

theorem matchEmailCore_iff (cs : List Char) :
    matchEmailCore cs = true ↔ SpecShape cs := by
  constructor
  · intro h
    unfold matchEmailCore at h
    cases hs : splitAtChar '@' cs with
    | none => rw [hs] at h; simp at h
    | some p =>
      obtain ⟨lp, rest⟩ := p
      rw [hs] at h
      dsimp only at h
      cases hd : lastDotSplit rest with
      | none => rw [hd] at h; simp at h
      | some q =>
        obtain ⟨dom, tld⟩ := q
        rw [hd] at h
        simp only [Bool.and_eq_true, Bool.not_eq_true', List.isEmpty_eq_false,
          decide_eq_true_eq] at h
        obtain ⟨⟨⟨⟨⟨h1, h2⟩, h3⟩, h4⟩, h5⟩, h6⟩ := h
        obtain ⟨hcs, _⟩ := splitAtChar_sound '@' cs lp rest hs
        obtain ⟨hrest, _⟩ := lastDotSplit_sound rest dom tld hd
        exact ⟨lp, dom, tld, by rw [hcs, hrest], h1, h2, h3, h4, h5, h6⟩
  · rintro ⟨lp, dom, tld, hcs, hlp, hlpc, hdom, hdomc, htl, htla⟩
    have hat : '@' ∉ lp := by
      intro hm
      have hc := List.all_eq_true.mp hlpc '@' hm
      exact absurd hc (by decide)
    have hdot : '.' ∉ tld := by
      intro hm
      have hc := List.all_eq_true.mp htla '.' hm
      exact absurd hc (by decide)
    unfold matchEmailCore
    rw [hcs, splitAtChar_complete '@' lp (dom ++ '.' :: tld) hat]
    dsimp only
    rw [lastDotSplit_complete dom tld hdot]
    simp [hlp, hlpc, hdom, hdomc, htl, htla]

/-! ## utils.sanitize_filename

The source replaces the character class `[<>:"/\\|?*]` with an underscore
(`re.sub`, per character), then, when the result is longer than 255
characters, recomputes it as `name[:255-len(ext)] + ext` where
`(name, ext) = os.path.splitext(sanitized)`. -/

def unsafeChars : List Char := ['<', '>', ':', '"', '/', '\\', '|', '?', '*']

def replaceUnsafe (c : Char) : Char := if c ∈ unsafeChars then '_' else c

/-- Embedding of os.path.splitext for strings without path separators
(after sanitisation the string has no `/`, `\\` or `:`): split at the
last dot, except that a string whose characters before that dot are all
dots has no extension. -/
def splitext (cs : List Char) : List Char × List Char :=
  match lastDotSplit cs with
  | none => (cs, [])
  | some (pre, post) =>
    if pre.all (fun c => c == '.') then (cs, []) else (pre, '.' :: post)

/-- Python slicing `cs[:k]` for an `Int` bound `k`: a negative bound counts
from the end and clamps at zero. -/
def pySliceTo (cs : List Char) (k : Int) : List Char :=
  if 0 ≤ k then cs.take k.toNat else cs.take (cs.length - (-k).toNat)

/-- Embedding of utils.sanitize_filename. -/
def sanitize_filename (filename : String) : String :=
  let repl := filename.data.map replaceUnsafe
  if 255 < repl.length then
    let pr := splitext repl
    String.mk (pySliceTo pr.1 (255 - (pr.2.length : Int)) ++ pr.2)
  else String.mk repl

theorem splitext_length (cs : List Char) :
    (splitext cs).1.length + (splitext cs).2.length = cs.length := by
  unfold splitext
  cases hl : lastDotSplit cs with
  | none => simp
  | some p =>
    obtain ⟨pre, post⟩ := p
    obtain ⟨hcs, _⟩ := lastDotSplit_sound cs pre post hl
    by_cases hall : pre.all (fun c => c == '.')
    · simp [hall]
    · simp only [hall, if_neg, Bool.false_eq_true, not_false_eq_true, hcs]
      simp

/-! ## templates.py: EmailTemplate

Jinja2 is an external collaborator.  A `Jinja` value gives the two
render capabilities the module uses: rendering a directory-loaded named
template (`self.env.get_template(name).render(**context)`) and rendering
an inline template string (`Template(s).render(**context)`).  A template
context is an association list of string keys and values; the pipeline
only ever reads the optional `subject` key from it. -/

def Ctx : Type := List (String × String)

def ctxGet (ctx : Ctx) (k d : String) : String :=
  match List.lookup k ctx with
  | some v => v
  | none => d

structure Jinja where
  renderNamed : String → Ctx → String
  renderInline : String → Ctx → String

/-- State of an EmailTemplate instance: `self.env` is set exactly when a
template directory was given and exists (templates.py constructor). -/
structure EmailTemplate where
  envLoaded : Bool

/-- Embedding of EmailTemplate.render_template: raises (RuntimeError)
when no environment was loaded, otherwise renders the named template. -/
def render_template (J : Jinja) (t : EmailTemplate) (name : String) (ctx : Ctx) :
    Except String String :=
  if t.envLoaded then .ok (J.renderNamed name ctx)
  else .error "Template directory not set or does not exist"

/-- Embedding of EmailTemplate.render_string. -/
def render_string (J : Jinja) (template_string : String) (ctx : Ctx) : String :=
  J.renderInline template_string ctx

/-- Truthiness of a Python `Optional[str]`: `None` and the empty string
are falsy. -/
def optStrTruthy : Option String → Bool
  | none => false
  | some s => !(s == "")

/-- Embedding of EmailTemplate.render_html_email.  The source guards the
subject template with `if subject_template:`, which is Python truthiness
on an optional string. -/
def render_html_email (J : Jinja) (t : EmailTemplate) (template_name : String)
    (ctx : Ctx) (subject_template : Option String) : Except String (String × String) :=
  match render_template J t template_name ctx with
  | .error e => .error e
  | .ok html_body =>
    let subject :=
      if optStrTruthy subject_template then
        render_string J (subject_template.getD "") ctx
      else ctxGet ctx "subject" "No Subject"
    .ok (subject, html_body)

/-! ## types.py: the data model -/

/-- Python type alias `EmailAddress = Union[str, List[str]]`. -/
inductive EmailAddressV where
  | single (s : String)
  | many (l : List String)
deriving DecidableEq

/-- Truthiness of an `EmailAddress`: the empty string and the empty list
are falsy. -/
def EmailAddressV.isFalsy : EmailAddressV → Bool
  | .single s => s == ""
  | .many l => l.isEmpty

/-- Truthiness of an `Optional[EmailAddress]`. -/
def optAddrTruthy : Option EmailAddressV → Bool
  | none => false
  | some a => !a.isFalsy

structure EmailConfig where
  smtp_server : String
  smtp_port : Nat
  smtp_user : String
  smtp_pass : String
  use_tls : Bool := true
  use_ssl : Bool := false
  timeout : Nat := 30
  max_retries : Nat := 3
deriving DecidableEq

structure EmailAttachment where
  file_path : String
  filename : Option String := none
  content_type : Option String := none
  content_id : Option String := none
  is_inline : Bool := false
deriving DecidableEq

structure EmailMessage where
  to_emails : EmailAddressV
  subject : String
  body : String
  is_html : Bool := false
  from_email : Option String := none
  cc_emails : Option EmailAddressV := none
  bcc_emails : Option EmailAddressV := none
  reply_to : Option String := none
  headers : Option (List (String × String)) := none
  attachments : Option (List EmailAttachment) := none
deriving DecidableEq

structure EmailResult where
  success : Bool
  message_id : Option String := none
  error_message : Option String := none
  recipients : Option (List String) := none
deriving DecidableEq

/-- One MIME part of the outgoing document: its content type, its header
list, and its (base64-encoded) payload. -/
structure MimePart where
  contentType : String
  headers : List (String × String)
  payload : String
deriving DecidableEq

/-- The assembled multipart document: the headers written on the
MIMEMultipart container (From, To, Subject, optional Cc, Reply-To and
custom headers; the fixed MIME-Version and multipart Content-Type lines
the library writes are constant and carry no addresses, so they are left
out) and the attached parts in order. -/
structure MimeMessage where
  headers : List (String × String)
  parts : List MimePart
deriving DecidableEq

/-! ## External collaborators of base.py and utils.py

smtplib is modelled as a `Transport`: each operation the mailer invokes
returns `Except String Unit`, with `.error e` standing for a raised
exception whose `str` is `e`.  `sendmail` receives the envelope sender,
the envelope recipient list and the document (the source serialises it
with `msg.as_string()`; the structured document is kept so that its
headers can be inspected).  The filesystem, the mimetypes table and the
base64 encoder used by create_attachment are modelled as an `Env`. -/

structure Transport where
  connectPlain : String → Nat → Nat → Except String Unit
  connectSSL : String → Nat → Nat → Except String Unit
  starttls : Except String Unit
  login : String → String → Except String Unit
  sendmail : String → List String → MimeMessage → Except String Unit
  quit : Except String Unit

structure Env where
  fileExists : String → Bool
  readFile : String → String
  guessType : String → Option String
  b64 : String → String

/-! ## utils.py: the remaining helpers -/

def EmailAddressV.toStrList : EmailAddressV → List String
  | .single s => [s]
  | .many l => l

def validateList : List String → Except String (List String)
  | [] => .ok []
  | e :: rest =>
    if validate_email e then
      match validateList rest with
      | .ok l => .ok (e :: l)
      | .error m => .error m
    else .error ("Invalid email address: " ++ e)

/-- Embedding of utils.validate_emails: normalises a single address into a
one-element list, then fails (ValueError) at the first invalid address and
otherwise returns the list unchanged. -/
def validate_emails (emails : EmailAddressV) : Except String (List String) :=
  validateList emails.toStrList

/-- Embedding of utils.format_email_list. -/
def format_email_list : EmailAddressV → String
  | .single s => s
  | .many l => String.intercalate ", " l

/-- Python `x or d` for an optional string `x`: `None` and `""` fall to `d`. -/
def pyStrOr (o : Option String) (d : String) : String :=
  match o with
  | some s => if s == "" then d else s
  | none => d

/-- Embedding of utils.get_content_type. -/
def get_content_type (env : Env) (file_path : String) : String :=
  pyStrOr (env.guessType file_path) "application/octet-stream"

/-- `Path(p).name`: the part after the last `/` (the whole string when
there is no `/`). -/
def pathName (p : String) : String :=
  match splitAtChar '/' p.data.reverse with
  | some (a, _) => String.mk a.reverse
  | none => p

/-- Embedding of utils.create_attachment: FileNotFoundError when the path
does not exist; the display filename defaults to the path base name
(an `is None` check, not truthiness); the content type defaults via
mimetypes sniffing; `MIMEBase(*content_type.split('/', 1))` raises
(TypeError) when the content type has no slash; the payload is the file
content, base64-encoded; a `Content-Transfer-Encoding: base64` header is
added by the encoder and a `Content-Disposition` header naming the file
is added last. -/
def create_attachment (env : Env) (file_path : String)
    (filename : Option String) (content_type : Option String) :
    Except String MimePart :=
  if env.fileExists file_path then
    let fn := match filename with
      | some f => f
      | none => pathName file_path
    let ct := match content_type with
      | some c => c
      | none => get_content_type env file_path
    if !ct.data.contains '/' then
      .error "MIMEBase missing 1 required positional argument _subtype"
    else
      .ok { contentType := ct,
            headers := [("Content-Transfer-Encoding", "base64"),
                        ("Content-Disposition", "attachment; filename=" ++ fn)],
            payload := env.b64 (env.readFile file_path) }
  else .error ("File not found: " ++ file_path)

/-! ## base.py: SMTPMailer

The mailer state is the `self._server` handle, `Option Unit`: `some ()`
when an smtplib object is held, `none` when it is null.  `connect`,
`close` and `send_email` are state transformers on that handle;
`send_email` additionally reports which transport calls it made (whether
`connect` was reached, and the arguments of the one `sendmail` call, when
one happened), so that claims about network activity and about the
transmitted document can be stated. -/

/-- The constructor step of SMTPMailer.connect: `smtplib.SMTP_SSL(...)`
when `use_ssl` is set, otherwise `smtplib.SMTP(...)`, with the configured
host, port and timeout. -/
def ctorStep (T : Transport) (cfg : EmailConfig) : Except String Unit :=
  if cfg.use_ssl then T.connectSSL cfg.smtp_server cfg.smtp_port cfg.timeout
  else T.connectPlain cfg.smtp_server cfg.smtp_port cfg.timeout

/-- The opportunistic-upgrade step of SMTPMailer.connect: `starttls()` is
issued only on the plaintext branch and only when `use_tls` is set. -/
def tlsStep (T : Transport) (cfg : EmailConfig) : Except String Unit :=
  if !cfg.use_ssl && cfg.use_tls then T.starttls else .ok ()

/-- Embedding of SMTPMailer.connect.  The whole body is wrapped in
`try ... except Exception: return False`: any step failing yields `false`
without raising.  `self._server` is assigned only when the constructor
call returns, so a constructor failure leaves the previous handle `s0`
in place, while a failure of starttls or login happens after the
assignment and leaves the fresh handle set. -/
def connect (T : Transport) (cfg : EmailConfig) (s0 : Option Unit) :
    Bool × Option Unit :=
  match ctorStep T cfg with
  | .error _ => (false, s0)
  | .ok _ =>
    match tlsStep T cfg with
    | .error _ => (false, some ())
    | .ok _ =>
      match T.login cfg.smtp_user cfg.smtp_pass with
      | .error _ => (false, some ())
      | .ok _ => (true, some ())

/-- Embedding of SMTPMailer.close: when a handle is held, `quit()` is
attempted and any exception from it is swallowed (logged only); the
`finally` block then nulls the handle.  With no handle it does nothing. -/
def close (T : Transport) (s0 : Option Unit) : Option Unit :=
  match s0 with
  | none => none
  | some _ =>
    match T.quit with
    | .ok _ => none
    | .error _ => none

/-- The validation prefix of SMTPMailer.send_email: raise ValueError when
the to field is falsy, then validate to, then cc and bcc (each validated
only when truthy, else the empty list). -/
def resolveRecipients (msg : EmailMessage) :
    Except String (List String × List String × List String) :=
  if msg.to_emails.isFalsy then .error "No recipient email addresses provided"
  else
    match validate_emails msg.to_emails with
    | .error m => .error m
    | .ok to_emails =>
      match (if optAddrTruthy msg.cc_emails
             then validate_emails (msg.cc_emails.getD (.many []))
             else .ok []) with
      | .error m => .error m
      | .ok cc_emails =>
        match (if optAddrTruthy msg.bcc_emails
               then validate_emails (msg.bcc_emails.getD (.many []))
               else .ok []) with
        | .error m => .error m
        | .ok bcc_emails => .ok (to_emails, cc_emails, bcc_emails)

/-- The body part: `MIMEText(message.body, "html" if message.is_html else
"plain")`. -/
def mkBodyPart (msg : EmailMessage) : MimePart :=
  { contentType := if msg.is_html then "text/html" else "text/plain",
    headers := [],
    payload := msg.body }

/-- One iteration of the attachment loop of send_email: build the part
with create_attachment, then append either a Content-ID plus inline
Content-Disposition header pair (when `is_inline` and `content_id` are
both truthy) or a bare attachment Content-Disposition header.  The
iteration is wrapped in `try ... except Exception: log`, so a part that
cannot be built is skipped (`none`) and the loop goes on. -/
def buildAttachmentPart (env : Env) (att : EmailAttachment) : Option MimePart :=
  match create_attachment env att.file_path att.filename att.content_type with
  | .error _ => none
  | .ok part =>
    if att.is_inline && optStrTruthy att.content_id then
      some { part with
              headers := part.headers ++
                [("Content-ID", "<" ++ att.content_id.getD "" ++ ">"),
                 ("Content-Disposition", "inline")] }
    else
      some { part with
              headers := part.headers ++ [("Content-Disposition", "attachment")] }

/-- The header block send_email writes on the container, in source order:
From (message override, falling back to the configured user via Python
`or`), To, Subject, then Cc when the validated cc list is nonempty,
Reply-To when truthy, and the custom header mapping when truthy.  The
bcc list is nowhere an input of this function. -/
def assembleHeaders (cfg : EmailConfig) (msg : EmailMessage)
    (to_emails cc_emails : List String) : List (String × String) :=
  [("From", pyStrOr msg.from_email cfg.smtp_user),
   ("To", format_email_list (.many to_emails)),
   ("Subject", msg.subject)]
  ++ (if cc_emails.isEmpty then [] else [("Cc", format_email_list (.many cc_emails))])
  ++ (if optStrTruthy msg.reply_to then [("Reply-To", msg.reply_to.getD "")] else [])
  ++ (match msg.headers with
      | some hs => hs
      | none => [])

/-- The document send_email assembles: the header block, the body part,
then the buildable attachments in order (per-attachment failures are
skipped). -/
def assembleDoc (env : Env) (cfg : EmailConfig) (msg : EmailMessage)
    (to_emails cc_emails : List String) : MimeMessage :=
  { headers := assembleHeaders cfg msg to_emails cc_emails,
    parts := mkBodyPart msg ::
      (match msg.attachments with
       | some atts => atts.filterMap (buildAttachmentPart env)
       | none => []) }

/-- Which transport calls a send made. -/
structure SendTrace where
  connectCalled : Bool
  transmitted : Option (String × List String × MimeMessage)
deriving DecidableEq

/-- The full outcome of one send_email call: the returned EmailResult,
the observable transport calls, and the final `self._server` handle. -/
structure SendOutcome where
  result : EmailResult
  trace : SendTrace
  server : Option Unit
deriving DecidableEq

/-- Embedding of SMTPMailer.send_email.  The body is
`try ... except Exception as e: return EmailResult(success=False,
error_message=str(e)) finally: self.close()`: a validation error returns
a failure result before any transport call; a connect failure returns a
failure result without transmitting; a sendmail exception returns a
failure result; otherwise a success result carries the concatenated
to+cc+bcc recipient list.  Every path runs close on the way out. -/
def send_email (T : Transport) (env : Env) (cfg : EmailConfig)
    (msg : EmailMessage) (s0 : Option Unit) : SendOutcome :=
  match resolveRecipients msg with
  | .error e =>
    { result := { success := false, error_message := some e },
      trace := { connectCalled := false, transmitted := none },
      server := close T s0 }
  | .ok (to_emails, cc_emails, bcc_emails) =>
    let doc := assembleDoc env cfg msg to_emails cc_emails
    match connect T cfg s0 with
    | (false, s1) =>
      { result := { success := false,
                    error_message := some "Failed to connect to SMTP server" },
        trace := { connectCalled := true, transmitted := none },
        server := close T s1 }
    | (true, s1) =>
      let all_recipients := to_emails ++ cc_emails ++ bcc_emails
      match T.sendmail cfg.smtp_user all_recipients doc with
      | .error e =>
        { result := { success := false, error_message := some e },
          trace := { connectCalled := true,
                     transmitted := some (cfg.smtp_user, all_recipients, doc) },
          server := close T s1 }
      | .ok _ =>
        { result := { success := true, recipients := some all_recipients },
          trace := { connectCalled := true,
                     transmitted := some (cfg.smtp_user, all_recipients, doc) },
          server := close T s1 }

/-! ## Concrete collaborators and inputs used by witnesses and
counterexamples -/

/-- A transport whose every operation succeeds. -/
def acceptAllT : Transport :=
  { connectPlain := fun _ _ _ => .ok (),
    connectSSL := fun _ _ _ => .ok (),
    starttls := .ok (),
    login := fun _ _ => .ok (),
    sendmail := fun _ _ _ => .ok (),
    quit := .ok () }

/-- A transport that opens and upgrades fine but rejects the login. -/
def loginFailT : Transport :=
  { acceptAllT with login := fun _ _ => .error "535 authentication failed" }

def cfg0 : EmailConfig :=
  { smtp_server := "smtp.example.com", smtp_port := 587,
    smtp_user := "sender@example.com", smtp_pass := "secret" }

/-- A filesystem on which only good.txt exists. -/
def env0 : Env :=
  { fileExists := fun p => p == "good.txt",
    readFile := fun _ => "DATA",
    guessType := fun _ => some "text/plain",
    b64 := fun s => s }

def msgNoTo : EmailMessage :=
  { to_emails := .many [], subject := "S", body := "B" }

def msgFull : EmailMessage :=
  { to_emails := .many ["to@example.com"], subject := "S", body := "B",
    cc_emails := some (.many ["cc@example.com"]),
    bcc_emails := some (.many ["bcc@example.com"]) }

def attBad : EmailAttachment := { file_path := "missing.bin" }

def attGood : EmailAttachment := { file_path := "good.txt" }

def msgAtt : EmailMessage :=
  { to_emails := .many ["to@example.com"], subject := "S", body := "B",
    attachments := some [attBad, attGood] }

/-- A concrete Jinja engine: the named template renders to BODY, an
inline template string renders to itself. -/
def jinjaCex : Jinja :=
  { renderNamed := fun _ _ => "BODY", renderInline := fun s _ => s }

def msgOverride : EmailMessage :=
  { to_emails := .many ["to@example.com"], subject := "S", body := "B",
    from_email := some "boss@example.com" }

theorem close_eq_none (T : Transport) (s : Option Unit) : close T s = none := by
  unfold close
  cases s with
  | none => rfl
  | some u => cases T.quit <;> rfl

/-! ## Claim theorems -/

/-- C2: for every transport behaviour, environment, configuration,
message and initial handle, send_email returns an EmailResult (the
embedding is a total function: every exception of the transport, of
validation or of assembly is a value here, none escapes), and that
result either is a success or is a failure that carries an error
message. -/
theorem send_email_total_result (T : Transport) (env : Env) (cfg : EmailConfig)
    (msg : EmailMessage) (s0 : Option Unit) :
    (send_email T env cfg msg s0).result.success = true ∨
    ((send_email T env cfg msg s0).result.success = false ∧
      (send_email T env cfg msg s0).result.error_message ≠ none) := by
  cases hr : resolveRecipients msg with
  | error e => simp [send_email, hr]
  | ok v =>
    obtain ⟨a, b, c⟩ := v
    cases hc : connect T cfg s0 with
    | mk ok s1 =>
      cases ok
      · simp [send_email, hr, hc]
      · simp only [send_email, hr, hc]
        cases hs : T.sendmail cfg.smtp_user (a ++ b ++ c) (assembleDoc env cfg msg a b) with
        | error e => simp
        | ok u => simp

/-- C3: after every send_email call, on every path (validation failure,
connect failure, transmit failure, success), the finally block has run
close and the connection handle is null. -/
theorem send_email_closes_connection (T : Transport) (env : Env)
    (cfg : EmailConfig) (msg : EmailMessage) (s0 : Option Unit) :
    (send_email T env cfg msg s0).server = none := by
  cases hr : resolveRecipients msg with
  | error e => simp [send_email, hr, close_eq_none]
  | ok v =>
    obtain ⟨a, b, c⟩ := v
    cases hc : connect T cfg s0 with
    | mk ok s1 =>
      cases ok
      · simp [send_email, hr, hc, close_eq_none]
      · simp only [send_email, hr, hc]
        cases hs : T.sendmail cfg.smtp_user (a ++ b ++ c) (assembleDoc env cfg msg a b) with
        | error e => simp [close_eq_none]
        | ok u => simp [close_eq_none]

/-- C4: a message whose to field is falsy (resolves to no recipient
address) makes send_email return a validation-failure result, and the
transport is never contacted: connect is not reached and nothing is
transmitted. -/
theorem send_email_no_recipients_no_connect (T : Transport) (env : Env)
    (cfg : EmailConfig) (msg : EmailMessage) (s0 : Option Unit)
    (h : msg.to_emails.isFalsy = true) :
    (send_email T env cfg msg s0).result =
      { success := false,
        error_message := some "No recipient email addresses provided" } ∧
    (send_email T env cfg msg s0).trace.connectCalled = false ∧
    (send_email T env cfg msg s0).trace.transmitted = none := by
  have hr : resolveRecipients msg = .error "No recipient email addresses provided" := by
    unfold resolveRecipients
    simp [h]
  unfold send_email
  rw [hr]
  exact ⟨rfl, rfl, rfl⟩

/-- Witness for C4 at a concrete empty-recipient message. -/
theorem send_email_no_recipients_no_connect_witness :
    msgNoTo.to_emails.isFalsy = true ∧
    (send_email acceptAllT env0 cfg0 msgNoTo none).result =
      { success := false,
        error_message := some "No recipient email addresses provided" } ∧
    (send_email acceptAllT env0 cfg0 msgNoTo none).trace.connectCalled = false := by
  have h : msgNoTo.to_emails.isFalsy = true := by decide
  have hmain := send_email_no_recipients_no_connect acceptAllT env0 cfg0 msgNoTo none h
  exact ⟨h, hmain.1, hmain.2.1⟩

/-- C1: a valid message (all three address lists validate) sent through a
transport that accepts connect and transmit yields a success Result whose
recipient list is the union (concatenation) of the to, cc and bcc lists;
the transmitted document is `assembleDoc`, whose construction reads the
to and cc lists but never the bcc list, so the headers of the transmitted
document are unchanged under any replacement of the bcc field: no bcc
address is written into any header. -/
theorem send_email_success_spec (T : Transport) (env : Env) (cfg : EmailConfig)
    (msg : EmailMessage) (s0 s1 : Option Unit)
    (to_emails cc_emails bcc_emails : List String)
    (hv : resolveRecipients msg = .ok (to_emails, cc_emails, bcc_emails))
    (hc : connect T cfg s0 = (true, s1))
    (hs : T.sendmail cfg.smtp_user (to_emails ++ cc_emails ++ bcc_emails)
            (assembleDoc env cfg msg to_emails cc_emails) = .ok ()) :
    (send_email T env cfg msg s0).result =
      { success := true,
        recipients := some (to_emails ++ cc_emails ++ bcc_emails) } ∧
    (send_email T env cfg msg s0).trace.transmitted =
      some (cfg.smtp_user, to_emails ++ cc_emails ++ bcc_emails,
            assembleDoc env cfg msg to_emails cc_emails) ∧
    ∀ b, assembleDoc env cfg { msg with bcc_emails := b } to_emails cc_emails =
          assembleDoc env cfg msg to_emails cc_emails := by
  have key : send_email T env cfg msg s0 =
      { result := { success := true,
                    recipients := some (to_emails ++ cc_emails ++ bcc_emails) },
        trace := { connectCalled := true,
                   transmitted := some (cfg.smtp_user,
                     to_emails ++ cc_emails ++ bcc_emails,
                     assembleDoc env cfg msg to_emails cc_emails) },
        server := close T s1 } := by
    simp only [send_email, hv, hc]
    rw [hs]
  refine ⟨by rw [key], by rw [key], ?_⟩
  intro b
  cases msg
  rfl

/-- Witness for C1 at a concrete message with one address in each list,
an all-accepting transport and the default-security configuration. -/
theorem send_email_success_spec_witness :
    resolveRecipients msgFull =
      .ok (["to@example.com"], ["cc@example.com"], ["bcc@example.com"]) ∧
    connect acceptAllT cfg0 none = (true, some ()) ∧
    (send_email acceptAllT env0 cfg0 msgFull none).result =
      { success := true,
        recipients := some ["to@example.com", "cc@example.com", "bcc@example.com"] } ∧
    (send_email acceptAllT env0 cfg0 msgFull none).trace.transmitted =
      some (cfg0.smtp_user,
            ["to@example.com", "cc@example.com", "bcc@example.com"],
            assembleDoc env0 cfg0 msgFull ["to@example.com"] ["cc@example.com"]) := by
  have hv : resolveRecipients msgFull =
      .ok (["to@example.com"], ["cc@example.com"], ["bcc@example.com"]) := rfl
  have hc : connect acceptAllT cfg0 none = (true, some ()) := rfl
  have hs : acceptAllT.sendmail cfg0.smtp_user
      (["to@example.com"] ++ ["cc@example.com"] ++ ["bcc@example.com"])
      (assembleDoc env0 cfg0 msgFull ["to@example.com"] ["cc@example.com"]) = .ok () := rfl
  have h := send_email_success_spec acceptAllT env0 cfg0 msgFull none (some ())
    ["to@example.com"] ["cc@example.com"] ["bcc@example.com"] hv hc hs
  exact ⟨hv, hc, h.1, h.2.1⟩

/-- C8: under the same reachable-transport hypotheses, a message carrying
an attachment list yields a successful send whose document parts are the
body part followed by exactly the buildable attachments (filterMap); an
attachment whose file path does not exist fails to build and is dropped,
and the send still succeeds with the other attachments included. -/
theorem send_email_attachment_skip_spec (T : Transport) (env : Env)
    (cfg : EmailConfig) (msg : EmailMessage) (s0 s1 : Option Unit)
    (to_emails cc_emails bcc_emails : List String) (atts : List EmailAttachment)
    (hv : resolveRecipients msg = .ok (to_emails, cc_emails, bcc_emails))
    (ha : msg.attachments = some atts)
    (hc : connect T cfg s0 = (true, s1))
    (hs : T.sendmail cfg.smtp_user (to_emails ++ cc_emails ++ bcc_emails)
            (assembleDoc env cfg msg to_emails cc_emails) = .ok ()) :
    (send_email T env cfg msg s0).result.success = true ∧
    (send_email T env cfg msg s0).result.recipients =
      some (to_emails ++ cc_emails ++ bcc_emails) ∧
    (assembleDoc env cfg msg to_emails cc_emails).parts =
      mkBodyPart msg :: atts.filterMap (buildAttachmentPart env) ∧
    (∀ att ∈ atts, env.fileExists att.file_path = false →
      buildAttachmentPart env att = none) := by
  have key : send_email T env cfg msg s0 =
      { result := { success := true,
                    recipients := some (to_emails ++ cc_emails ++ bcc_emails) },
        trace := { connectCalled := true,
                   transmitted := some (cfg.smtp_user,
                     to_emails ++ cc_emails ++ bcc_emails,
                     assembleDoc env cfg msg to_emails cc_emails) },
        server := close T s1 } := by
    simp only [send_email, hv, hc]
    rw [hs]
  refine ⟨by rw [key], by rw [key], ?_, ?_⟩
  · simp [assembleDoc, ha]
  · intro att _ hf
    simp [buildAttachmentPart, create_attachment, hf]

/-- Witness for C8: of two attachments, missing.bin does not exist and is
dropped, good.txt exists and its part is included; the send succeeds. -/
theorem send_email_attachment_skip_spec_witness :
    resolveRecipients msgAtt = .ok (["to@example.com"], [], []) ∧
    msgAtt.attachments = some [attBad, attGood] ∧
    (send_email acceptAllT env0 cfg0 msgAtt none).result.success = true ∧
    (assembleDoc env0 cfg0 msgAtt ["to@example.com"] []).parts =
      mkBodyPart msgAtt :: [attBad, attGood].filterMap (buildAttachmentPart env0) ∧
    buildAttachmentPart env0 attBad = none ∧
    (buildAttachmentPart env0 attGood).isSome = true := by
  have hv : resolveRecipients msgAtt = .ok (["to@example.com"], [], []) := rfl
  have ha : msgAtt.attachments = some [attBad, attGood] := rfl
  have hc : connect acceptAllT cfg0 none = (true, some ()) := rfl
  have hs : acceptAllT.sendmail cfg0.smtp_user (["to@example.com"] ++ [] ++ [])
      (assembleDoc env0 cfg0 msgAtt ["to@example.com"] []) = .ok () := rfl
  have h := send_email_attachment_skip_spec acceptAllT env0 cfg0 msgAtt none (some ())
    ["to@example.com"] [] [] [attBad, attGood] hv ha hc hs
  refine ⟨hv, ha, h.1, h.2.2.1, ?_, ?_⟩
  · decide
  · decide

/-- C10: whatever arguments send_email ever hands to the transport
transmit operation, the envelope sender is the configured SMTP user —
even when the message carries a from_email override, which reaches only
the From header of the document (the first header written). -/
theorem send_email_envelope_from_spec (T : Transport) (env : Env)
    (cfg : EmailConfig) (msg : EmailMessage) (s0 : Option Unit) :
    ∀ f rcpts doc,
      (send_email T env cfg msg s0).trace.transmitted = some (f, rcpts, doc) →
      f = cfg.smtp_user ∧
      doc.headers.head? = some ("From", pyStrOr msg.from_email cfg.smtp_user) := by
  intro f rcpts doc h
  cases hr : resolveRecipients msg with
  | error e => simp [send_email, hr] at h
  | ok v =>
    obtain ⟨a, b, c⟩ := v
    cases hc : connect T cfg s0 with
    | mk ok s1 =>
      cases ok
      · simp [send_email, hr, hc] at h
      · simp only [send_email, hr, hc] at h
        cases hsend : T.sendmail cfg.smtp_user (a ++ b ++ c) (assembleDoc env cfg msg a b) with
        | error e =>
          rw [hsend] at h
          simp only [Option.some.injEq, Prod.mk.injEq] at h
          obtain ⟨hf, _, hdoc⟩ := h
          subst hdoc
          exact ⟨hf.symm, rfl⟩
        | ok u =>
          rw [hsend] at h
          simp only [Option.some.injEq, Prod.mk.injEq] at h
          obtain ⟨hf, _, hdoc⟩ := h
          subst hdoc
          exact ⟨hf.symm, rfl⟩

/-- Witness for C10: a message with a from_email override, sent through
the all-accepting transport: the envelope sender handed to transmit is
the configured user, and the From header carries the override. -/
theorem send_email_envelope_from_spec_witness :
    (send_email acceptAllT env0 cfg0 msgOverride none).trace.transmitted =
      some (cfg0.smtp_user, ["to@example.com"],
            assembleDoc env0 cfg0 msgOverride ["to@example.com"] []) ∧
    cfg0.smtp_user = cfg0.smtp_user ∧
    (assembleDoc env0 cfg0 msgOverride ["to@example.com"] []).headers.head? =
      some ("From", pyStrOr msgOverride.from_email cfg0.smtp_user) := by
  have ht : (send_email acceptAllT env0 cfg0 msgOverride none).trace.transmitted =
      some (cfg0.smtp_user, ["to@example.com"],
            assembleDoc env0 cfg0 msgOverride ["to@example.com"] []) := by decide
  have h := send_email_envelope_from_spec acceptAllT env0 cfg0 msgOverride none
    cfg0.smtp_user ["to@example.com"]
    (assembleDoc env0 cfg0 msgOverride ["to@example.com"] []) ht
  exact ⟨ht, h.1 ▸ rfl, h.2⟩

/-- C5 counterexample: with a transport whose socket open and upgrade
succeed but whose login fails, connect on a fresh mailer returns false,
yet the connection handle is not null afterwards (the source assigns
self._server before authenticating and the except block does not clear
it), contradicting the claim that the handle is null after any connect
failure. -/
theorem connect_auth_failure_cex :
    (connect loginFailT cfg0 none).1 = false ∧
    (connect loginFailT cfg0 none).2 ≠ none := by
  exact ⟨rfl, by simp [connect, loginFailT, acceptAllT, cfg0, ctorStep, tlsStep]⟩

/-- C5 (amended): connect returns false, never an exception, on every
failure of the connect path; afterwards (from a fresh mailer) the
connection handle is null exactly when the failing step was the socket
open (the constructor), while a failure of the encryption upgrade or of
the authentication leaves the handle set. -/
theorem connect_failure_spec (T : Transport) (cfg : EmailConfig) :
    (∀ e, ctorStep T cfg = .error e → connect T cfg none = (false, none)) ∧
    (∀ e, ctorStep T cfg = .ok () → tlsStep T cfg = .error e →
      connect T cfg none = (false, some ())) ∧
    (∀ e, ctorStep T cfg = .ok () → tlsStep T cfg = .ok () →
      T.login cfg.smtp_user cfg.smtp_pass = .error e →
      connect T cfg none = (false, some ())) := by
  refine ⟨fun e h1 => ?_, fun e h1 h2 => ?_, fun e h1 h2 h3 => ?_⟩
  · unfold connect
    rw [h1]
  · unfold connect
    rw [h1]
    dsimp only
    rw [h2]
  · unfold connect
    rw [h1]
    dsimp only
    rw [h2]
    dsimp only
    rw [h3]

/-- C9 counterexample: with the subject template present but empty
(`some ""`), the source's truthiness test `if subject_template:` takes
the else branch, so the returned subject is the subject found in the
context, not the rendered subject template: the claim that a provided
subject template is always rendered fails. -/
theorem render_html_email_empty_template_cex :
    render_html_email jinjaCex ⟨true⟩ "welcome.html" [("subject", "X")] (some "") =
      .ok ("X", "BODY") ∧
    render_html_email jinjaCex ⟨true⟩ "welcome.html" [("subject", "X")] (some "") ≠
      .ok (render_string jinjaCex "" [("subject", "X")],
           jinjaCex.renderNamed "welcome.html" [("subject", "X")]) := by
  constructor
  · rfl
  · intro h
    have : ("X", "BODY") = ("", "BODY") := by
      have h2 := h
      simp [render_html_email, render_template, render_string, jinjaCex,
        optStrTruthy, ctxGet] at h2
    simp at this

/-- C9 (amended): when the body template renders, render_html_email
returns it as the body; the subject is the rendered subject template
whenever a nonempty subject template is provided, and otherwise (no
subject template, or an empty one, which Python truthiness treats the
same) the subject is the subject key of the context, the literal
"No Subject" when that key is absent. -/
theorem render_html_email_spec (J : Jinja) (t : EmailTemplate)
    (template_name : String) (ctx : Ctx) (st : Option String) (body : String)
    (hb : render_template J t template_name ctx = .ok body) :
    (∀ s, st = some s → s ≠ "" →
      render_html_email J t template_name ctx st =
        .ok (render_string J s ctx, body)) ∧
    (st = none ∨ st = some "" →
      render_html_email J t template_name ctx st =
        .ok (ctxGet ctx "subject" "No Subject", body)) ∧
    (List.lookup "subject" ctx = none →
      ctxGet ctx "subject" "No Subject" = "No Subject") := by
  refine ⟨?_, ?_, ?_⟩
  · intro s hs hne
    subst hs
    unfold render_html_email
    rw [hb]
    simp [optStrTruthy, hne]
  · intro h
    unfold render_html_email
    rw [hb]
    rcases h with h | h <;> subst h <;> simp [optStrTruthy]
  · intro h
    unfold ctxGet
    rw [h]

/-- Witness for C9 at a concrete loaded template environment: the body
comes from the named-template renderer, and a nonempty subject template
is rendered for the subject. -/
theorem render_html_email_spec_witness :
    render_template jinjaCex ⟨true⟩ "welcome.html" [("user_name", "Ann")] = .ok "BODY" ∧
    render_html_email jinjaCex ⟨true⟩ "welcome.html" [("user_name", "Ann")]
        (some "Hi there") =
      .ok (render_string jinjaCex "Hi there" [("user_name", "Ann")], "BODY") ∧
    render_html_email jinjaCex ⟨true⟩ "welcome.html" [("user_name", "Ann")] none =
      .ok ("No Subject", "BODY") := by
  have hb : render_template jinjaCex ⟨true⟩ "welcome.html" [("user_name", "Ann")] =
      .ok "BODY" := rfl
  have h := render_html_email_spec jinjaCex ⟨true⟩ "welcome.html"
    [("user_name", "Ann")] (some "Hi there") "BODY" hb
  have h2 := render_html_email_spec jinjaCex ⟨true⟩ "welcome.html"
    [("user_name", "Ann")] none "BODY" hb
  refine ⟨hb, h.1 "Hi there" rfl (by simp), ?_⟩
  have h3 := h2.2.1 (Or.inl rfl)
  rw [h3]
  rfl

/-- C6 counterexample: the Python `$` anchor also matches just before a
trailing newline, so validate_email accepts a string with a trailing
newline that does not have the claimed local-part@domain.tld form: the
for-all-strings iff of the claim fails. -/
theorem validate_email_trailing_newline_cex :
    validate_email "a@b.co\n" = true ∧ ¬ IsSpecValidAddress "a@b.co\n" := by
  constructor
  · decide
  · intro h
    have hm : matchEmailCore "a@b.co\n".data = true := (matchEmailCore_iff _).mpr h
    have hf : matchEmailCore "a@b.co\n".data = false := by decide
    rw [hf] at hm
    exact Bool.false_ne_true hm

/-- C6 (amended): validate_email accepts exactly the strings of the
claimed local-part@domain.tld form, plus the strings of that form
followed by one trailing newline (Python re `$` semantics); in
particular it is true for a.b+c@example.co and false for not-an-email
and for a@b. -/
theorem validate_email_spec :
    (∀ s : String, validate_email s = true ↔
      (IsSpecValidAddress s ∨
        ∃ t : String, s = t ++ "\n" ∧ IsSpecValidAddress t)) ∧
    validate_email "a.b+c@example.co" = true ∧
    validate_email "not-an-email" = false ∧
    validate_email "a@b" = false := by
  refine ⟨?_, by decide, by decide, by decide⟩
  intro s
  unfold validate_email
  rw [Bool.or_eq_true]
  constructor
  · rintro (h | h)
    · exact Or.inl ((matchEmailCore_iff _).mp h)
    · right
      cases hl : s.data.getLast? with
      | none => rw [hl] at h; simp at h
      | some c =>
        rw [hl] at h
        simp only [Bool.and_eq_true, beq_iff_eq] at h
        obtain ⟨hc, hm⟩ := h
        subst hc
        obtain ⟨l', hsplit⟩ := List.getLast?_eq_some_iff.mp hl
        have hd : s.data.dropLast = l' := by
          rw [hsplit]; exact List.dropLast_concat ..
        refine ⟨String.mk l', ?_, ?_⟩
        · apply String.ext
          rw [String.data_append]
          exact hsplit
        · exact (matchEmailCore_iff _).mp (hd ▸ hm)
  · rintro (h | ⟨t, hst, ht⟩)
    · exact Or.inl ((matchEmailCore_iff _).mpr h)
    · right
      have hdata : s.data = t.data ++ ['\n'] := by
        rw [hst, String.data_append]
      rw [hdata, List.getLast?_concat, List.dropLast_concat]
      simp [(matchEmailCore_iff _).mpr ht]

/-- A 300-character filename whose extension, in the splitext sense, is
256 characters long. -/
def longBadName : String :=
  String.mk (List.replicate 44 'a' ++ '.' :: List.replicate 255 'b')

/-- A 300-character filename ending in .txt. -/
def longTxtName : String :=
  String.mk (List.replicate 296 'a' ++ '.' :: ['t', 'x', 't'])

set_option maxRecDepth 10000 in
/-- C7 counterexample: when the extension itself is longer than 255
characters, the Python slice `name[:255-len(ext)]` has a negative bound,
so the truncated result is not 255 characters long (here 299): the claim
that every over-long name comes back at exactly 255 characters fails. -/
theorem sanitize_filename_long_ext_cex :
    255 < (longBadName.data.map replaceUnsafe).length ∧
    (sanitize_filename longBadName).data.length ≠ 255 := by
  constructor
  · decide
  · decide

set_option maxRecDepth 10000 in
/-- C7 (amended): sanitize_filename replaces each character of the class
with an underscore (a result no longer than 255 characters is exactly
the replaced string); when the replaced string is longer than 255
characters and its splitext extension is at most 255 characters long,
the result is exactly 255 characters and still ends with that extension;
in particular a_b_c.txt comes from the angle-bracketed name, and a
300-character name ending in .txt comes back as 251 letters followed by
.txt, 255 characters in all. -/
theorem sanitize_filename_spec :
    (∀ s : String,
      ((s.data.map replaceUnsafe).length ≤ 255 →
        (sanitize_filename s).data = s.data.map replaceUnsafe) ∧
      (255 < (s.data.map replaceUnsafe).length →
        (splitext (s.data.map replaceUnsafe)).2.length ≤ 255 →
        (sanitize_filename s).data.length = 255 ∧
        (splitext (s.data.map replaceUnsafe)).2 <:+ (sanitize_filename s).data)) ∧
    sanitize_filename "a<b>c.txt" = "a_b_c.txt" ∧
    (sanitize_filename longTxtName).data =
      List.replicate 251 'a' ++ '.' :: ['t', 'x', 't'] := by
  refine ⟨fun s => ⟨?_, ?_⟩, by decide, by decide⟩
  · intro hle
    simp only [sanitize_filename]
    rw [if_neg (by omega)]
  · intro h255 hext
    have hsum := splitext_length (s.data.map replaceUnsafe)
    have hnn : (0 : Int) ≤
        255 - ((splitext (s.data.map replaceUnsafe)).2.length : Int) := by omega
    have htn : ((255 : Int) -
        ((splitext (s.data.map replaceUnsafe)).2.length : Int)).toNat =
        255 - (splitext (s.data.map replaceUnsafe)).2.length := by omega
    have hdata : (sanitize_filename s).data =
        (splitext (s.data.map replaceUnsafe)).1.take
          (255 - (splitext (s.data.map replaceUnsafe)).2.length) ++
        (splitext (s.data.map replaceUnsafe)).2 := by
      simp only [sanitize_filename]
      rw [if_pos h255]
      unfold pySliceTo
      rw [if_pos hnn, htn]
    constructor
    · rw [hdata, List.length_append, List.length_take]
      omega
    · exact ⟨_, hdata.symm⟩

end Mailer

